import Mathlib

/-!
Verification of the composite-joystick core against its specification.

This file gives a shallow embedding of the axis multiplexer
(`src/joystick_mux.rs`), the binary report encoder (`src/report.rs`) and
the input-axis derivation (`src/main.rs::get_input_axes`), and proves or
refutes the specified properties over that embedding.

Modelling conventions:
* Rust `i64`/`i32` values are embedded as unbounded `Int`; the event
  values handled by the mux are `i32`-ranged and the configured bounds
  are small, so no arithmetic in the claims wraps.  The one place where
  wrapping is semantically relevant (`value as i16` in the report
  encoder) is modelled explicitly with `% 2^16`.
* Rust `i64` division (`/`), which truncates toward zero, is embedded as
  `Int.tdiv`.  Division by zero panics in Rust, so divisions are wrapped
  in `divChecked`, and evaluation results live in an outer `Option`
  layer whose `none` means "the Rust code panics here".
* evdev event codes are embedded as the inductive `EventCode`; the 44
  button key codes recognised by the report encoder (`BTN_TRIGGER`,
  `BTN_THUMB`, ..., `BTN_TRIGGER_HAPPY32`) are renamed to
  `EventCode.evKey 0`, ..., `EventCode.evKey 43` in declaration order;
  key codes `≥ 44` are the unrecognised ones.
-/

/-- Absolute-axis event codes used by the program (`EV_ABS` variants). -/
inductive AbsCode
  | absX
  | absY
  | absZ
  | absRX
  | absRY
  | absRZ
  | absThrottle
  | absRudder
  | absHat0X
  | absHat0Y
  | absOther (n : Nat)
deriving DecidableEq, Repr

/-- Event codes: the synchronization marker, absolute axes, relative axes
and key/button codes.  Button `i` of the report (declaration order) is
`evKey i`. -/
inductive EventCode
  | evSyn
  | evAbs (a : AbsCode)
  | evRel (n : Nat)
  | evKey (n : Nat)
deriving DecidableEq, Repr

/-- `JoystickId(pub u16)`: identifier of one physical source device. -/
structure JoystickId where
  jid : Nat
deriving DecidableEq, Repr

/-- `InputAxisId { joystick, axis }`: one raw input channel. -/
structure InputAxisId where
  joystick : JoystickId
  axis : EventCode
deriving DecidableEq, Repr

/-- `InputAxis { id, lower_bound, upper_bound }`: a raw channel together
with its declared raw range. -/
structure InputAxis where
  id : InputAxisId
  lower_bound : Int
  upper_bound : Int
deriving DecidableEq, Repr

/-- `impl Neg for InputAxis` (src/joystick_mux.rs:38-47): keep the id,
swap the bounds. -/
def InputAxis.neg (a : InputAxis) : InputAxis :=
  { id := a.id, lower_bound := a.upper_bound, upper_bound := a.lower_bound }

instance : Neg InputAxis :=
  ⟨InputAxis.neg⟩

/-- `OutputAxisId(pub EventCode)`: one logical output channel. -/
structure OutputAxisId where
  code : EventCode
deriving DecidableEq, Repr

/-- `AxisCombineFn` of src/joystick_mux.rs:19-23.  Note the `Button`
variant in that file has no mode field: evaluation always tests
`value != 0`. -/
inductive AxisCombineFn
  | largestMagnitude (inputs : List InputAxis)
  | button (inputs : List InputAxis)
  | hat (x y : InputAxisId)
deriving Repr, DecidableEq

/-- The mux: last-observed raw value per input channel (the `value` field
of the stored `InputEvent`) plus the configured combine function per
output axis.  The `HashMap` of combine functions is embedded as an
insertion list with replace-on-insert; no claim depends on iteration
order. -/
structure JoystickMux where
  axis_states : InputAxisId → Option Int
  axes : List (OutputAxisId × AxisCombineFn)

/-- `JoystickMux::new` (fresh mux, no state, no axes). -/
def JoystickMux.new : JoystickMux :=
  { axis_states := fun _ => none, axes := [] }

/-- `configure_axis`: `self.axes.insert(output_axis, combine_fn)` —
inserts or replaces. -/
def JoystickMux.configure_axis (m : JoystickMux) (output_axis : OutputAxisId)
    (combine_fn : AxisCombineFn) : JoystickMux :=
  { m with axes := (output_axis, combine_fn) :: m.axes.filter (fun p => p.1 != output_axis) }

/-- `update` (src/joystick_mux.rs:122-135): a synchronization event
triggers output delivery (a side channel, no state change); any other
event code overwrites the stored raw value for `(joystick, code)`. -/
def JoystickMux.update (m : JoystickMux) (joystick : JoystickId)
    (code : EventCode) (value : Int) : JoystickMux :=
  match code with
  | .evSyn => m
  | c =>
    { m with
      axis_states := fun i =>
        if i = { joystick := joystick, axis := c } then some value else m.axis_states i }

/-- `OUTPUT_UPPER_BOUND` constant. -/
def OUTPUT_UPPER_BOUND : Int := 32767

/-- `OUTPUT_LOWER_BOUND` constant. -/
def OUTPUT_LOWER_BOUND : Int := -32767

/-- Rust `i64` division truncates toward zero and panics on a zero
divisor; `none` records the panic. -/
def divChecked (a b : Int) : Option Int :=
  if b = 0 then none else some (a.tdiv b)

/-- One `LargestMagnitude` candidate (src/joystick_mux.rs:156-164): an
observed raw value is rescaled by
`OUTPUT_LOWER_BOUND + (v - lower) * (OUTPUT_UPPER_BOUND - OUTPUT_LOWER_BOUND) / (upper - lower)`;
an unobserved input contributes `0`. -/
def candidate (states : InputAxisId → Option Int) (input : InputAxis) : Option Int :=
  match states input.id with
  | some value =>
    (divChecked ((value - input.lower_bound) * (OUTPUT_UPPER_BOUND - OUTPUT_LOWER_BOUND))
        (input.upper_bound - input.lower_bound)).map
      (fun q => OUTPUT_LOWER_BOUND + q)
  | none => some 0

/-- Collect a list of possibly-panicking results; `none` as soon as any
element panics. -/
def seqOption {α : Type} : List (Option α) → Option (List α)
  | [] => some []
  | o :: rest => o.bind (fun v => (seqOption rest).map (fun vs => v :: vs))

/-- Rust `Iterator::max_by_key(|value| value.abs())`: maximum by absolute
value, returning the LAST maximal element on ties; `none` on an empty
list. -/
def maxByAbsLast (l : List Int) : Option Int :=
  l.foldl
    (fun acc v =>
      match acc with
      | none => some v
      | some a => if a.natAbs ≤ v.natAbs then some v else some a)
    none

/-- The hat direction if-chain (src/joystick_mux.rs:181-201): compass
index clockwise from the top, `-1` for no direction, with `+Y` down and
`+X` right.  The final `unreachable!` arm is `none`. -/
def hatValue (x_val y_val : Int) : Option Int :=
  if x_val = 0 ∧ y_val = 0 then some (-1)
  else if x_val = 0 ∧ y_val < 0 then some 0
  else if 0 < x_val ∧ y_val < 0 then some 1
  else if 0 < x_val ∧ y_val = 0 then some 2
  else if 0 < x_val ∧ 0 < y_val then some 3
  else if x_val = 0 ∧ 0 < y_val then some 4
  else if x_val < 0 ∧ 0 < y_val then some 5
  else if x_val < 0 ∧ y_val = 0 then some 6
  else if x_val < 0 ∧ y_val < 0 then some 7
  else none

/-- Lookup of the combine function configured for an output axis. -/
def lookupAxis (axes : List (OutputAxisId × AxisCombineFn)) (out : OutputAxisId) :
    Option AxisCombineFn :=
  (axes.find? (fun p => p.1 == out)).map Prod.snd

/-- `output_axis` (src/joystick_mux.rs:137-206).  Result layering:
`none` = the Rust code panics; `some none` = Rust returns `None`
(unconfigured axis, or `LargestMagnitude` over an empty input list);
`some (some v)` = Rust returns `Some(v)`. -/
def JoystickMux.output_axis (m : JoystickMux) (axis_id : OutputAxisId) :
    Option (Option Int) :=
  match lookupAxis m.axes axis_id with
  | none => some none
  | some (.button inputs) =>
    some (some (if inputs.any (fun input =>
        match m.axis_states input.id with
        | some value => value != 0
        | none => false) then 1 else 0))
  | some (.largestMagnitude inputs) =>
    (seqOption (inputs.map (candidate m.axis_states))).map maxByAbsLast
  | some (.hat x y) =>
    (hatValue ((m.axis_states x).getD 0) ((m.axis_states y).getD 0)).map (fun v => some v)

/-- `output` (src/joystick_mux.rs:208-218): evaluate every configured
axis, mapping an unconfigured/`None` evaluation to `0`; a panic anywhere
propagates.  The numeric sort performed by `OutputState::new` is not
modelled: no claim depends on the order of the pairs. -/
def JoystickMux.output (m : JoystickMux) : Option (List (OutputAxisId × Int)) :=
  seqOption (m.axes.map (fun p => (m.output_axis p.1).map (fun r => (p.1, r.getD 0))))

/-! ### Report encoder (src/report.rs) -/

/-- Accumulated field state of `make_report`'s loop: the numeric fields of
`CompositeJoystickReport` (already truncated to `i16` at assignment), the
44 button flags, and the two hat sign accumulators `hatx`/`haty`. -/
structure EncState where
  ex : Int
  ey : Int
  ez : Int
  erx : Int
  ery : Int
  erz : Int
  slider : Int
  dial : Int
  buttons : List Bool
  hatx : Int
  haty : Int
deriving Repr

/-- Rust `value as i16`: wrap to the signed 16-bit range. -/
def asI16 (v : Int) : Int :=
  let m := v.emod 65536
  if 32768 ≤ m then m - 65536 else m

/-- Initial report fields (src/report.rs:30-41): all numeric fields `0`,
hat accumulators `0`, all buttons unset. -/
def initEnc : EncState :=
  { ex := 0, ey := 0, ez := 0, erx := 0, ery := 0, erz := 0, slider := 0, dial := 0,
    buttons := List.replicate 44 false, hatx := 0, haty := 0 }

/-- One iteration of the `make_report` match (src/report.rs:44-102):
continuous axes store `value as i16`, the hat inputs store
`value.signum()`, key code `i < 44` stores `value != 0` into button `i`,
and everything else is ignored. -/
def encStep (s : EncState) (entry : EventCode × Int) : EncState :=
  match entry.1 with
  | .evAbs .absX => { s with ex := asI16 entry.2 }
  | .evAbs .absY => { s with ey := asI16 entry.2 }
  | .evAbs .absZ => { s with ez := asI16 entry.2 }
  | .evAbs .absRX => { s with erx := asI16 entry.2 }
  | .evAbs .absRY => { s with ery := asI16 entry.2 }
  | .evAbs .absRZ => { s with erz := asI16 entry.2 }
  | .evAbs .absThrottle => { s with slider := asI16 entry.2 }
  | .evAbs .absRudder => { s with dial := asI16 entry.2 }
  | .evAbs .absHat0X => { s with hatx := entry.2.sign }
  | .evAbs .absHat0Y => { s with haty := entry.2.sign }
  | .evKey n => if n < 44 then { s with buttons := s.buttons.set n (entry.2 != 0) } else s
  | _ => s

/-- Little-endian bytes of an `i16`-ranged value. -/
def i16bytes (v : Int) : List Nat :=
  [(v.emod 65536).toNat % 256, (v.emod 65536).toNat / 256]

/-- Numeric value of a single bit. -/
def bit (b : Bool) : Nat :=
  if b then 1 else 0

/-- Rust `u8::reverse_bits`. -/
def reverseBits8 (b : Nat) : Nat :=
  128 * (b % 2) + 64 * (b / 2 % 2) + 32 * (b / 4 % 2) + 16 * (b / 8 % 2) +
    8 * (b / 16 % 2) + 4 * (b / 32 % 2) + 2 * (b / 64 % 2) + (b / 128 % 2)

/-- `flip_hat_bits` (src/report.rs:119-121): `hat.reverse_bits() >> 4`. -/
def flip_hat_bits (hat : Nat) : Nat :=
  reverseBits8 hat / 16

/-- `hatxy_to_angle` (src/report.rs:123-141): compass index from the two
sign accumulators, `15` for centred, `unreachable!` (here `none`) for
values outside `{-1, 0, 1}`. -/
def hatxy_to_angle (hatx haty : Int) : Option Nat :=
  if hatx = 0 ∧ haty = 0 then some 15
  else if hatx = 0 ∧ haty = -1 then some 0
  else if hatx = 1 ∧ haty = -1 then some 1
  else if hatx = 1 ∧ haty = 0 then some 2
  else if hatx = 1 ∧ haty = 1 then some 3
  else if hatx = 0 ∧ haty = 1 then some 4
  else if hatx = -1 ∧ haty = 1 then some 5
  else if hatx = -1 ∧ haty = 0 then some 6
  else if hatx = -1 ∧ haty = -1 then some 7
  else none

/-- One byte of the button region before the per-byte bit reversal:
buttons are packed MSB-first, so the button with the lowest index in the
byte lands in the most significant bit. -/
def buttonByte (bs : List Bool) (i : Nat) : Nat :=
  128 * bit (bs.getD i false) + 64 * bit (bs.getD (i + 1) false) +
    32 * bit (bs.getD (i + 2) false) + 16 * bit (bs.getD (i + 3) false) +
    8 * bit (bs.getD (i + 4) false) + 4 * bit (bs.getD (i + 5) false) +
    2 * bit (bs.getD (i + 6) false) + bit (bs.getD (i + 7) false)

/-- The 22 bytes produced by `CompositeJoystickReport::pack` followed by
the per-byte `reverse_bits` of bytes 16..21 (src/report.rs:107-116).
Byte 16 packs the (already bit-flipped) hat nibble in its high nibble and
buttons 0..3 MSB-first in its low nibble, before the reversal. -/
def packReport (s : EncState) (angle : Nat) : List Nat :=
  i16bytes s.ex ++ i16bytes s.ey ++ i16bytes s.ez ++ i16bytes s.erx ++ i16bytes s.ery ++
    i16bytes s.erz ++ i16bytes s.slider ++ i16bytes s.dial ++
    [reverseBits8 (16 * flip_hat_bits angle + 8 * bit (s.buttons.getD 0 false) +
        4 * bit (s.buttons.getD 1 false) + 2 * bit (s.buttons.getD 2 false) +
        bit (s.buttons.getD 3 false)),
      reverseBits8 (buttonByte s.buttons 4),
      reverseBits8 (buttonByte s.buttons 12),
      reverseBits8 (buttonByte s.buttons 20),
      reverseBits8 (buttonByte s.buttons 28),
      reverseBits8 (buttonByte s.buttons 36)]

/-- `make_report` (src/report.rs:29-117): fold the state entries, then
pack; `none` records the (unreachable in practice) `hatxy_to_angle`
panic. -/
def make_report (state : List (EventCode × Int)) : Option (List Nat) :=
  let s := state.foldl encStep initEnc
  (hatxy_to_angle s.hatx s.haty).map (packReport s)

/-- Position of button `i`'s bit in the final report: struct bit
`132 + i` lives in byte `(132 + i) / 8`; the per-byte reversal moves
MSB-first position `(132 + i) % 8` to that plain bit index. -/
def buttonBitOfReport (bytes : List Nat) (i : Nat) : Bool :=
  Nat.testBit (bytes.getD (16 + (4 + i) / 8) 0) ((132 + i) % 8)

/-! ### Input-axis derivation (src/main.rs:204-241) -/

/-- What the derivation reads from a physical device: the explicit range
(if any) and the channel-present flag, per event code. -/
structure DeviceModel where
  abs_info : EventCode → Option (Int × Int)
  has : EventCode → Bool

/-- The derivation loop iterates `EV_ABS` and `EV_REL` codes only. -/
def isAbsOrRel : EventCode → Bool
  | .evAbs _ => true
  | .evRel _ => true
  | _ => false

/-- `get_input_axes` (src/main.rs:204-241), as the map it builds, keyed by
event code: a channel with an explicit range keeps that range; a present
channel without one gets the default bounds `[-1000, 1000]`; codes that
are neither absolute nor relative are never visited. -/
def get_input_axes (device : DeviceModel) (id : Nat) (code : EventCode) :
    Option InputAxis :=
  if isAbsOrRel code then
    match device.abs_info code with
    | some info =>
      some { id := { joystick := { jid := id }, axis := code },
             lower_bound := info.1, upper_bound := info.2 }
    | none =>
      if device.has code then
        some { id := { joystick := { jid := id }, axis := code },
               lower_bound := -1000, upper_bound := 1000 }
      else none
  else none

/-! ### Mode-aware button evaluation (modelled from the spec) -/

/-- Modelled from the spec: the `ButtonMode` enum referenced by
`src/configuration.rs` (`NonZero`, `Positive`, `Negative`); the
`joystick_mux.rs` present in the source tree predates it. -/
inductive ButtonMode
  | nonZero
  | positive
  | negative
deriving DecidableEq, Repr

/-- Modelled from the spec: classification of one raw value as pressed —
`NonZero → raw≠0; Positive → raw>0; Negative → raw<0`. -/
def buttonModePressed (mode : ButtonMode) (value : Int) : Bool :=
  match mode with
  | .nonZero => decide (value ≠ 0)
  | .positive => decide (0 < value)
  | .negative => decide (value < 0)

/-- Modelled from the spec: the mode-aware `Button` combine function,
missing from the `joystick_mux.rs` in the tree but required by its caller
`configure_mux` — an input with no observed value is never pressed, and
the output is `1` if any input is pressed, else `0`. -/
def evalButtonMode (states : InputAxisId → Option Int) (mode : ButtonMode)
    (inputs : List InputAxis) : Int :=
  if inputs.any (fun input =>
      match states input.id with
      | some v => buttonModePressed mode v
      | none => false) then 1 else 0

/-! ### Spec-side reference definitions -/

/-- The hat table exactly as the spec states it (§4.1), as a function of
the two signs; the program encodes "null/no-direction" as `-1` at the mux
level.  `none` for arguments outside `{-1,0,1} × {-1,0,1}`. -/
def hatTableSpec (sx sy : Int) : Option Int :=
  if sx = 0 ∧ sy = 0 then some (-1)
  else if sx = 0 ∧ sy = -1 then some 0
  else if sx = 1 ∧ sy = -1 then some 1
  else if sx = 1 ∧ sy = 0 then some 2
  else if sx = 1 ∧ sy = 1 then some 3
  else if sx = 0 ∧ sy = 1 then some 4
  else if sx = -1 ∧ sy = 1 then some 5
  else if sx = -1 ∧ sy = 0 then some 6
  else if sx = -1 ∧ sy = -1 then some 7
  else none

/-- Clamping to the fixed output range, as the spec's §8 phrase "the raw
value clamped to that range" describes it. -/
def clampOut (v : Int) : Int :=
  max OUTPUT_LOWER_BOUND (min OUTPUT_UPPER_BOUND v)

/-! ### Helper lemmas -/

theorem hatValue_eq_hatTableSpec (x y : Int) :
    hatValue x y = hatTableSpec x.sign y.sign := by
  rcases Int.lt_trichotomy x 0 with hx | hx | hx
  · rcases Int.lt_trichotomy y 0 with hy | hy | hy
    · rw [Int.sign_eq_neg_one_of_neg hx, Int.sign_eq_neg_one_of_neg hy,
        show hatTableSpec (-1) (-1) = some 7 from by decide]
      simp [hatValue, hx, hy, hx.ne, hy.ne, asymm hx, asymm hy]
    · rw [Int.sign_eq_neg_one_of_neg hx, hy, Int.sign_zero,
        show hatTableSpec (-1) 0 = some 6 from by decide]
      simp [hatValue, hx, hx.ne, asymm hx]
    · rw [Int.sign_eq_neg_one_of_neg hx, Int.sign_eq_one_of_pos hy,
        show hatTableSpec (-1) 1 = some 5 from by decide]
      simp [hatValue, hx, hy, hx.ne, hy.ne', asymm hx, asymm hy]
  · rcases Int.lt_trichotomy y 0 with hy | hy | hy
    · rw [hx, Int.sign_zero, Int.sign_eq_neg_one_of_neg hy,
        show hatTableSpec 0 (-1) = some 0 from by decide]
      simp [hatValue, hy, hy.ne, asymm hy]
    · rw [hx, hy, Int.sign_zero]
      decide
    · rw [hx, Int.sign_zero, Int.sign_eq_one_of_pos hy,
        show hatTableSpec 0 1 = some 4 from by decide]
      simp [hatValue, hy, hy.ne', asymm hy]
  · rcases Int.lt_trichotomy y 0 with hy | hy | hy
    · rw [Int.sign_eq_one_of_pos hx, Int.sign_eq_neg_one_of_neg hy,
        show hatTableSpec 1 (-1) = some 1 from by decide]
      simp [hatValue, hx, hy, hx.ne', hy.ne, asymm hx, asymm hy]
    · rw [Int.sign_eq_one_of_pos hx, hy, Int.sign_zero,
        show hatTableSpec 1 0 = some 2 from by decide]
      simp [hatValue, hx, hx.ne', asymm hx]
    · rw [Int.sign_eq_one_of_pos hx, Int.sign_eq_one_of_pos hy,
        show hatTableSpec 1 1 = some 3 from by decide]
      simp [hatValue, hx, hy, hx.ne', hy.ne', asymm hx, asymm hy]

theorem hatValue_isSome (x y : Int) : ∃ v, hatValue x y = some v := by
  unfold hatValue
  split_ifs <;>
    first
    | exact ⟨_, rfl⟩
    | omega

theorem maxByAbsLast_append (l : List Int) (x : Int) :
    maxByAbsLast (l ++ [x]) =
      match maxByAbsLast l with
      | none => some x
      | some a => if a.natAbs ≤ x.natAbs then some x else some a := by
  unfold maxByAbsLast
  rw [List.foldl_append]
  rfl

/-- Characterization of `maxByAbsLast` on a non-empty list: the result is
an element of maximal absolute value, and every element strictly after it
has strictly smaller absolute value (so it is the LAST maximal one). -/
theorem maxByAbsLast_spec (l : List Int) (h : l ≠ []) :
    ∃ l₁ v l₂, l = l₁ ++ v :: l₂ ∧ maxByAbsLast l = some v ∧
      (∀ u ∈ l, u.natAbs ≤ v.natAbs) ∧ (∀ u ∈ l₂, u.natAbs < v.natAbs) := by
  induction l using List.reverseRecOn with
  | nil => exact absurd rfl h
  | append_singleton l x ih =>
    rcases eq_or_ne l [] with hl | hl
    · subst hl
      exact ⟨[], x, [], rfl, rfl, by simp, by simp⟩
    · obtain ⟨l₁, v, l₂, hsplit, hmv, hmax, hafter⟩ := ih hl
      rw [maxByAbsLast_append, hmv]
      by_cases hle : v.natAbs ≤ x.natAbs
      · refine ⟨l, x, [], rfl, by simp [hle], ?_, by simp⟩
        intro u hu
        rcases List.mem_append.mp hu with hu | hu
        · exact le_trans (hmax u hu) hle
        · simp only [List.mem_singleton] at hu
          subst hu
          exact le_refl _
      · refine ⟨l₁, v, l₂ ++ [x], by rw [hsplit]; simp, by simp [hle], ?_, ?_⟩
        · intro u hu
          rcases List.mem_append.mp hu with hu | hu
          · exact hmax u hu
          · simp only [List.mem_singleton] at hu
            subst hu
            exact le_of_not_le hle
        · intro u hu
          rcases List.mem_append.mp hu with hu | hu
          · exact hafter u hu
          · simp only [List.mem_singleton] at hu
            subst hu
            exact lt_of_not_le hle

theorem seqOption_of_forall_some {α : Type} (l : List (Option α)) (g : List α)
    (h : l = g.map some) : seqOption l = some g := by
  subst h
  induction g with
  | nil => rfl
  | cons a g ih => simp [seqOption, ih]

theorem seqOption_map_eq_some {α β : Type} (l : List α) (f : α → Option β) (g : α → β)
    (h : ∀ x ∈ l, f x = some (g x)) : seqOption (l.map f) = some (l.map g) := by
  induction l with
  | nil => rfl
  | cons a l ih =>
    have ha : f a = some (g a) := h a (List.mem_cons_self a l)
    have hrest := ih (fun x hx => h x (List.mem_cons_of_mem a hx))
    simp [seqOption, ha, hrest]

theorem seqOption_ne_none {α : Type} (l : List (Option α))
    (h : ∀ x ∈ l, x ≠ none) : seqOption l ≠ none := by
  induction l with
  | nil => simp [seqOption]
  | cons a l ih =>
    have ha := h a (List.mem_cons_self a l)
    have hrest := ih (fun x hx => h x (List.mem_cons_of_mem a hx))
    rcases a with _ | v
    · exact absurd rfl ha
    · rcases ho : seqOption l with _ | g
      · exact absurd ho hrest
      · simp [seqOption, ho]

theorem tmod_neg_left (a b : Int) : (-a).tmod b = -(a.tmod b) := by
  have h1 := Int.tdiv_add_tmod a b
  have h2 := Int.tdiv_add_tmod (-a) b
  rw [Int.neg_tdiv, mul_neg] at h2
  linarith

theorem natAbs_tmod_lt (x d : Int) (hd : d ≠ 0) : (x.tmod d).natAbs < d.natAbs := by
  have main : ∀ a b : Int, 0 < b → (a.tmod b).natAbs < b.natAbs := by
    intro a b hb
    rcases le_or_lt 0 a with ha | ha
    · have h1 : 0 ≤ a.tmod b := Int.tmod_nonneg b ha
      have h2 : a.tmod b < b := Int.tmod_lt_of_pos a hb
      exact Int.natAbs_lt_natAbs_of_nonneg_of_lt h1 h2
    · have hneg : a.tmod b = -((-a).tmod b) := by
        rw [tmod_neg_left, neg_neg]
      have h1 : 0 ≤ (-a).tmod b := Int.tmod_nonneg b (by omega)
      have h2 : (-a).tmod b < b := Int.tmod_lt_of_pos (-a) hb
      rw [hneg, Int.natAbs_neg]
      exact Int.natAbs_lt_natAbs_of_nonneg_of_lt h1 h2
  rcases lt_trichotomy d 0 with hdn | hdz | hdp
  · have hswap : x.tmod d = x.tmod (-d) := by
      have := Int.tmod_neg x (-d)
      rwa [neg_neg] at this
    rw [hswap, show d.natAbs = (-d).natAbs from (Int.natAbs_neg d).symm]
    exact main x (-d) (by omega)
  · exact absurd hdz hd
  · exact main x d hdp

/-- The two truncated divisions of complementary numerators differ from
the exact sum by at most one: `x.tdiv d + (d * k - x).tdiv d` is `k` or
off by one. -/
theorem tdiv_complementary_sum (x d k : Int) (hd : d ≠ 0) :
    (x.tdiv d + (d * k - x).tdiv d - k).natAbs ≤ 1 := by
  have h1 := Int.tdiv_add_tmod x d
  have h2 := Int.tdiv_add_tmod (d * k - x) d
  have hkey : d * (x.tdiv d + (d * k - x).tdiv d - k) = -(x.tmod d + (d * k - x).tmod d) := by
    ring_nf
    linarith [h1, h2]
  have hr1 := natAbs_tmod_lt x d hd
  have hr2 := natAbs_tmod_lt (d * k - x) d hd
  have habs : d.natAbs * (x.tdiv d + (d * k - x).tdiv d - k).natAbs =
      (x.tmod d + (d * k - x).tmod d).natAbs := by
    rw [← Int.natAbs_mul, hkey, Int.natAbs_neg]
  have hsum : (x.tmod d + (d * k - x).tmod d).natAbs ≤
      (x.tmod d).natAbs + ((d * k - x).tmod d).natAbs := Int.natAbs_add_le _ _
  have hdpos : 0 < d.natAbs := Int.natAbs_pos.mpr hd
  nlinarith [habs, hsum, hr1, hr2, hdpos]

theorem sign_cases (x : Int) : x.sign = -1 ∨ x.sign = 0 ∨ x.sign = 1 := by
  rcases Int.lt_trichotomy x 0 with h | h | h
  · exact Or.inl (Int.sign_eq_neg_one_of_neg h)
  · exact Or.inr (Or.inl (by rw [h]; rfl))
  · exact Or.inr (Or.inr (Int.sign_eq_one_of_pos h))

theorem candidate_eq_formula (states : InputAxisId → Option Int) (input : InputAxis)
    (v : Int) (hobs : states input.id = some v)
    (hne : input.lower_bound ≠ input.upper_bound) :
    candidate states input =
      some ((-32767) +
        ((v - input.lower_bound) * 65534).tdiv (input.upper_bound - input.lower_bound)) := by
  have hd : input.upper_bound - input.lower_bound ≠ 0 := by omega
  simp [candidate, hobs, divChecked, hd, OUTPUT_UPPER_BOUND, OUTPUT_LOWER_BOUND]

/-! ### Fixtures for concrete evaluations -/

/-- Output axis used by the concrete fixtures. -/
def outX : OutputAxisId := ⟨.evAbs .absX⟩

/-- Device id used by the concrete fixtures. -/
def js0 : JoystickId := ⟨0⟩

/-- An input axis on device 0, absolute X, with the given bounds. -/
def axX (lb ub : Int) : InputAxis := ⟨⟨js0, .evAbs .absX⟩, lb, ub⟩

/-- An input axis on device 0, absolute Y, with the given bounds. -/
def axY (lb ub : Int) : InputAxis := ⟨⟨js0, .evAbs .absY⟩, lb, ub⟩

/-- A mux whose X output is a single-input `LargestMagnitude` over the
inverted range `[5, -5]` (the spec's §8 polarity-flip example). -/
def muxInv : JoystickMux :=
  JoystickMux.new.configure_axis outX (.largestMagnitude [axX 5 (-5)])

/-- A mux whose X output is a single-input `LargestMagnitude` over the
full range `[-32767, 32767]` (the spec's §8 identity example). -/
def muxIdent : JoystickMux :=
  JoystickMux.new.configure_axis outX (.largestMagnitude [axX (-32767) 32767])

/-- A two-input `LargestMagnitude` mux over full ranges, used for the
tie-breaking witness. -/
def muxTwo : JoystickMux :=
  JoystickMux.new.configure_axis outX
    (.largestMagnitude [axX (-32767) 32767, axY (-32767) 32767])

/-- A hat mux over the two hat channels of device 0. -/
def muxHat : JoystickMux :=
  JoystickMux.new.configure_axis outX
    (.hat ⟨js0, .evAbs .absHat0X⟩ ⟨js0, .evAbs .absHat0Y⟩)

/-- Raw state with a single observation: absolute X of device 0 = `w`. -/
def statesX (w : Int) : InputAxisId → Option Int :=
  fun i => if i = ⟨js0, .evAbs .absX⟩ then some w else none

/-! ### Claims -/

/-- C1: Every `LargestMagnitude` input with an observed raw value `v`
contributes the candidate
`-32767 + (v - lower_bound) * 65534 / (upper_bound - lower_bound)` in
exact integer arithmetic with truncating division (`Int.tdiv`); with the
inverted bounds `lower_bound = 5, upper_bound = -5` the same formula maps
raw `5 ↦ -32767`, raw `-5 ↦ 32767` and raw `0 ↦ 0` through the whole
mux pipeline. -/
theorem largest_magnitude_rescale_formula :
    (∀ (states : InputAxisId → Option Int) (input : InputAxis) (v : Int),
      states input.id = some v →
      input.lower_bound ≠ input.upper_bound →
      candidate states input =
        some ((-32767) +
          ((v - input.lower_bound) * 65534).tdiv (input.upper_bound - input.lower_bound))) ∧
    (muxInv.update js0 (.evAbs .absX) 5).output_axis outX = some (some (-32767)) ∧
    (muxInv.update js0 (.evAbs .absX) (-5)).output_axis outX = some (some 32767) ∧
    (muxInv.update js0 (.evAbs .absX) 0).output_axis outX = some (some 0) := by
  refine ⟨candidate_eq_formula, by decide, by decide, by decide⟩

/-- Witness for C1: the general formula conjunct applied to the inverted
range `[5, -5]` at observed raw value `5` yields `-32767`. -/
theorem largest_magnitude_rescale_formula_witness :
    candidate (statesX 5) (axX 5 (-5)) = some (-32767) := by
  have h := largest_magnitude_rescale_formula.1 (statesX 5) (axX 5 (-5)) 5
    (by decide) (by decide)
  rw [h]
  decide

/-- C2: a `LargestMagnitude` axis with non-empty inputs evaluates to the
candidate of greatest absolute value; every candidate after the selected
one is strictly smaller in absolute value (so on ties the latest declared
input wins), and an unobserved input contributes candidate `0`. -/
theorem largest_magnitude_selects_last_max
    (m : JoystickMux) (out : OutputAxisId) (inputs : List InputAxis)
    (hfn : lookupAxis m.axes out = some (.largestMagnitude inputs))
    (hne : inputs ≠ [])
    (hsafe : ∀ input ∈ inputs,
      m.axis_states input.id = none ∨ input.lower_bound ≠ input.upper_bound) :
    ∃ v l₁ l₂,
      m.output_axis out = some (some v) ∧
      inputs.map (fun input => (candidate m.axis_states input).getD 0) = l₁ ++ v :: l₂ ∧
      (∀ u ∈ l₁ ++ v :: l₂, u.natAbs ≤ v.natAbs) ∧
      (∀ u ∈ l₂, u.natAbs < v.natAbs) ∧
      (∀ input ∈ inputs, m.axis_states input.id = none →
        candidate m.axis_states input = some 0) := by
  have hcands : ∀ input ∈ inputs,
      candidate m.axis_states input = some ((candidate m.axis_states input).getD 0) := by
    intro input hi
    rcases hsafe input hi with hnone | hdb
    · simp [candidate, hnone]
    · rcases hobs : m.axis_states input.id with _ | w
      · simp [candidate, hobs]
      · have hd : input.upper_bound - input.lower_bound ≠ 0 := by omega
        simp [candidate, hobs, divChecked, hd]
  have hseq : seqOption (inputs.map (candidate m.axis_states)) =
      some (inputs.map (fun input => (candidate m.axis_states input).getD 0)) :=
    seqOption_map_eq_some inputs _ _ hcands
  have hmapne : inputs.map (fun input => (candidate m.axis_states input).getD 0) ≠ [] := by
    simpa using hne
  obtain ⟨l₁, v, l₂, hsplit, hmv, hmax, hafter⟩ := maxByAbsLast_spec _ hmapne
  refine ⟨v, l₁, l₂, ?_, hsplit, ?_, hafter, ?_⟩
  · simp [JoystickMux.output_axis, hfn, hseq, hmv]
  · intro u hu
    exact hmax u (hsplit ▸ hu)
  · intro input _ hnone
    simp [candidate, hnone]

/-- Witness for C2: the two-input full-range mux with observed values `5`
and `-5` — equal magnitude — selects the later declared input's value. -/
theorem largest_magnitude_selects_last_max_witness :
    ∃ v l₁ l₂,
      ((muxTwo.update js0 (.evAbs .absX) 5).update js0 (.evAbs .absY) (-5)).output_axis outX =
        some (some v) ∧
      [axX (-32767) 32767, axY (-32767) 32767].map
        (fun input => (candidate ((muxTwo.update js0 (.evAbs .absX) 5).update js0
          (.evAbs .absY) (-5)).axis_states input).getD 0) = l₁ ++ v :: l₂ ∧
      (∀ u ∈ l₁ ++ v :: l₂, u.natAbs ≤ v.natAbs) ∧
      (∀ u ∈ l₂, u.natAbs < v.natAbs) ∧
      (∀ input ∈ [axX (-32767) 32767, axY (-32767) 32767],
        ((muxTwo.update js0 (.evAbs .absX) 5).update js0 (.evAbs .absY) (-5)).axis_states
          input.id = none →
        candidate ((muxTwo.update js0 (.evAbs .absX) 5).update js0
          (.evAbs .absY) (-5)).axis_states input = some 0) :=
  largest_magnitude_selects_last_max _ outX _ (by decide) (by decide) (by decide)

/-- C3: a `Hat` axis reduces the two stored raw values (`0` when
unobserved) to their signs and returns exactly the spec's table —
`(0,0) ↦ -1` (null), `(0,-1) ↦ 0`, `(1,-1) ↦ 1`, `(1,0) ↦ 2`,
`(1,1) ↦ 3`, `(0,1) ↦ 4`, `(-1,1) ↦ 5`, `(-1,0) ↦ 6`, `(-1,-1) ↦ 7` —
with all nine sign combinations defined (no `unreachable!` case). -/
theorem hat_sign_table
    (m : JoystickMux) (out : OutputAxisId) (x y : InputAxisId)
    (hfn : lookupAxis m.axes out = some (.hat x y)) :
    (∃ v, m.output_axis out = some (some v) ∧
      hatTableSpec ((m.axis_states x).getD 0).sign ((m.axis_states y).getD 0).sign = some v) ∧
    hatTableSpec 0 0 = some (-1) ∧ hatTableSpec 0 (-1) = some 0 ∧
    hatTableSpec 1 (-1) = some 1 ∧ hatTableSpec 1 0 = some 2 ∧
    hatTableSpec 1 1 = some 3 ∧ hatTableSpec 0 1 = some 4 ∧
    hatTableSpec (-1) 1 = some 5 ∧ hatTableSpec (-1) 0 = some 6 ∧
    hatTableSpec (-1) (-1) = some 7 ∧
    (∀ sx sy : Int, sx.natAbs ≤ 1 → sy.natAbs ≤ 1 → ∃ w, hatTableSpec sx sy = some w) := by
  refine ⟨?_, by decide, by decide, by decide, by decide, by decide, by decide,
    by decide, by decide, by decide, ?_⟩
  · obtain ⟨v, hv⟩ := hatValue_isSome ((m.axis_states x).getD 0) ((m.axis_states y).getD 0)
    refine ⟨v, ?_, ?_⟩
    · simp [JoystickMux.output_axis, hfn, hv]
    · rw [← hatValue_eq_hatTableSpec]
      exact hv
  · intro sx sy hsx hsy
    have hx : sx = -1 ∨ sx = 0 ∨ sx = 1 := by omega
    have hy : sy = -1 ∨ sy = 0 ∨ sy = 1 := by omega
    rcases hx with h | h | h <;> rcases hy with h2 | h2 | h2 <;> subst h <;> subst h2 <;>
      simp [hatTableSpec]

/-- Witness for C3: the concrete hat mux with observed raw values
`(3, -2)` (signs `(1, -1)`) evaluates to compass index 1. -/
theorem hat_sign_table_witness :
    (∃ v, ((muxHat.update js0 (.evAbs .absHat0X) 3).update js0
        (.evAbs .absHat0Y) (-2)).output_axis outX = some (some v) ∧
      hatTableSpec ((((muxHat.update js0 (.evAbs .absHat0X) 3).update js0
          (.evAbs .absHat0Y) (-2)).axis_states ⟨js0, .evAbs .absHat0X⟩).getD 0).sign
        ((((muxHat.update js0 (.evAbs .absHat0X) 3).update js0
          (.evAbs .absHat0Y) (-2)).axis_states ⟨js0, .evAbs .absHat0Y⟩).getD 0).sign = some v) ∧
    hatTableSpec 0 0 = some (-1) ∧ hatTableSpec 0 (-1) = some 0 ∧
    hatTableSpec 1 (-1) = some 1 ∧ hatTableSpec 1 0 = some 2 ∧
    hatTableSpec 1 1 = some 3 ∧ hatTableSpec 0 1 = some 4 ∧
    hatTableSpec (-1) 1 = some 5 ∧ hatTableSpec (-1) 0 = some 6 ∧
    hatTableSpec (-1) (-1) = some 7 ∧
    (∀ sx sy : Int, sx.natAbs ≤ 1 → sy.natAbs ≤ 1 → ∃ w, hatTableSpec sx sy = some w) :=
  hat_sign_table _ outX ⟨js0, .evAbs .absHat0X⟩ ⟨js0, .evAbs .absHat0Y⟩ (by decide)

/-- The 22-byte report produced when exactly button `i` is pressed. -/
def btnReport (i : Nat) : List Nat :=
  (make_report [(.evKey i, 1)]).getD []

/-- C4: for every recognized button, `make_report` of that single button
with any non-zero value yields a report whose 44 button-bit positions
contain exactly one set bit, at that button's position; the first
declared button gives byte 16 = `0x1f` (its bit next to the 15-valued
hat nibble) and the last declared button gives `0x80` in byte 21. -/
theorem make_report_single_button (i : Fin 44) (v : Int) (hv : v ≠ 0) :
    make_report [(.evKey i.1, v)] = some (btnReport i.1) ∧
    (∀ j : Fin 44, buttonBitOfReport (btnReport i.1) j.1 = decide (j.1 = i.1)) ∧
    btnReport 0 =
      [0, 0, 0, 0, 0, 0, 0, 0, 0, 0, 0, 0, 0, 0, 0, 0, 31, 0, 0, 0, 0, 0] ∧
    btnReport 43 =
      [0, 0, 0, 0, 0, 0, 0, 0, 0, 0, 0, 0, 0, 0, 0, 0, 15, 0, 0, 0, 0, 128] := by
  have hb : (v != 0) = true := bne_iff_ne.mpr hv
  have h1 : make_report [(.evKey i.1, v)] = make_report [(.evKey i.1, 1)] := by
    simp [make_report, encStep, hb]
  have hsome : ∀ k : Fin 44, make_report [(.evKey k.1, 1)] = some (btnReport k.1) := by decide
  have hbits : ∀ k : Fin 44, ∀ j : Fin 44,
      buttonBitOfReport (btnReport k.1) j.1 = decide (j.1 = k.1) := by decide
  exact ⟨h1.trans (hsome i), hbits i, by decide, by decide⟩

/-- Witness for C4: pressing the first declared button with value 1. -/
theorem make_report_single_button_witness :
    make_report [(.evKey 0, 1)] = some (btnReport 0) ∧
    (∀ j : Fin 44, buttonBitOfReport (btnReport 0) j.1 = decide (j.1 = 0)) ∧
    btnReport 0 =
      [0, 0, 0, 0, 0, 0, 0, 0, 0, 0, 0, 0, 0, 0, 0, 0, 31, 0, 0, 0, 0, 0] ∧
    btnReport 43 =
      [0, 0, 0, 0, 0, 0, 0, 0, 0, 0, 0, 0, 0, 0, 0, 0, 15, 0, 0, 0, 0, 128] :=
  make_report_single_button ⟨0, by decide⟩ 1 (by decide)

/-- C5 counterexample: encoding the empty state puts the null hat value
15 in the LOW nibble of byte 16 (`0x0f`); the high nibble is 0, not the
claimed 15. -/
theorem hat_high_nibble_counterexample :
    (make_report []).map (fun bytes => bytes.getD 16 0 / 16) = some 0 ∧
    (make_report []).map (fun bytes => bytes.getD 16 0 % 16) = some 15 ∧
    (0 : Nat) ≠ 15 := by
  decide

/-- C5 (amended): in the final report the hat value lives in the LOW
nibble of byte 16 — 15 when no hat axes are present or the computed angle
is "no direction" (both signs zero), else the 0-7 compass index — while
with no buttons pressed the high nibble is 0. -/
theorem hat_low_nibble_byte16 (hx hy : Int) :
    (∃ bytes, make_report [] = some bytes ∧
      bytes.getD 16 0 % 16 = 15 ∧ bytes.getD 16 0 / 16 = 0) ∧
    (∃ bytes a, make_report [(.evAbs .absHat0X, hx), (.evAbs .absHat0Y, hy)] = some bytes ∧
      hatxy_to_angle hx.sign hy.sign = some a ∧
      bytes.getD 16 0 % 16 = a ∧ bytes.getD 16 0 / 16 = 0) := by
  refine ⟨⟨_, rfl, by decide, by decide⟩, ?_⟩
  have hred : make_report [(.evAbs .absHat0X, hx), (.evAbs .absHat0Y, hy)] =
      (hatxy_to_angle hx.sign hy.sign).map
        (packReport { initEnc with hatx := hx.sign, haty := hy.sign }) := by
    rfl
  rw [hred]
  rcases sign_cases hx with hsx | hsx | hsx <;> rcases sign_cases hy with hsy | hsy | hsy <;>
    rw [hsx, hsy] <;> exact ⟨_, _, rfl, rfl, by decide, by decide⟩

/-- C6 (spec-modelled): mode-aware button evaluation is the OR over
inputs of the per-mode classification — it returns `1` exactly when some
input has an observed value that is non-zero (NonZero), positive
(Positive) or negative (Negative), an input with no observed value is
never pressed, and the result is always `0` or `1`. -/
theorem button_mode_or_semantics (states : InputAxisId → Option Int)
    (mode : ButtonMode) (inputs : List InputAxis) :
    (evalButtonMode states mode inputs = 1 ∨ evalButtonMode states mode inputs = 0) ∧
    (evalButtonMode states mode inputs = 1 ↔
      ∃ input ∈ inputs, ∃ v, states input.id = some v ∧
        ((mode = .nonZero ∧ v ≠ 0) ∨ (mode = .positive ∧ 0 < v) ∨
          (mode = .negative ∧ v < 0))) ∧
    ((∀ input ∈ inputs, states input.id = none) → evalButtonMode states mode inputs = 0) := by
  have hpress : ∀ v : Int, buttonModePressed mode v = true ↔
      ((mode = .nonZero ∧ v ≠ 0) ∨ (mode = .positive ∧ 0 < v) ∨
        (mode = .negative ∧ v < 0)) := by
    intro v
    cases mode <;> simp [buttonModePressed]
  have hany : (inputs.any fun input =>
      match states input.id with
      | some v => buttonModePressed mode v
      | none => false) = true ↔
      ∃ input ∈ inputs, ∃ v, states input.id = some v ∧
        ((mode = .nonZero ∧ v ≠ 0) ∨ (mode = .positive ∧ 0 < v) ∨
          (mode = .negative ∧ v < 0)) := by
    rw [List.any_eq_true]
    constructor
    · rintro ⟨input, hin, hp⟩
      rcases hobs : states input.id with _ | v
      · rw [hobs] at hp
        exact absurd hp (by simp)
      · rw [hobs] at hp
        exact ⟨input, hin, v, hobs, (hpress v).mp hp⟩
    · rintro ⟨input, hin, v, hobs, hc⟩
      refine ⟨input, hin, ?_⟩
      rw [hobs]
      exact (hpress v).mpr hc
  unfold evalButtonMode
  by_cases h : (inputs.any fun input =>
      match states input.id with
      | some v => buttonModePressed mode v
      | none => false) = true
  · rw [if_pos h]
    refine ⟨Or.inl rfl, by simpa using hany.mp h, ?_⟩
    intro habsent
    obtain ⟨input, _, v, hobs, _⟩ := hany.mp h
    rw [habsent input (by assumption)] at hobs
    exact absurd hobs (by simp)
  · rw [if_neg h]
    refine ⟨Or.inr rfl, ?_, fun _ => rfl⟩
    constructor
    · intro h10
      exact absurd h10 (by norm_num)
    · intro hex
      exact absurd (hany.mpr hex) h

/-- Witness for C6: a Positive-mode button over one input whose observed
value is 5. -/
theorem button_mode_or_semantics_witness :
    (evalButtonMode (statesX 5) .positive [axX 0 1] = 1 ∨
      evalButtonMode (statesX 5) .positive [axX 0 1] = 0) ∧
    (evalButtonMode (statesX 5) .positive [axX 0 1] = 1 ↔
      ∃ input ∈ [axX 0 1], ∃ v, statesX 5 input.id = some v ∧
        ((ButtonMode.positive = .nonZero ∧ v ≠ 0) ∨
          (ButtonMode.positive = .positive ∧ 0 < v) ∨
          (ButtonMode.positive = .negative ∧ v < 0))) ∧
    ((∀ input ∈ [axX 0 1], statesX 5 input.id = none) →
      evalButtonMode (statesX 5) .positive [axX 0 1] = 0) :=
  button_mode_or_semantics (statesX 5) .positive [axX 0 1]

/-- C7 counterexample: with bounds `[-32767, 32767]` the rescale is the
plain identity, with NO clamping — the out-of-range raw value 40000
evaluates to 40000, not to the clamped 32767. -/
theorem identity_range_clamp_counterexample :
    (muxIdent.update js0 (.evAbs .absX) 40000).output_axis outX = some (some 40000) ∧
    clampOut 40000 = 32767 ∧
    (muxIdent.update js0 (.evAbs .absX) 40000).output_axis outX ≠
      some (some (clampOut 40000)) := by
  refine ⟨by decide, by decide, by decide⟩

/-- C7 (amended): with bounds `[-32767, 32767]` evaluation returns
exactly the observed raw value — for every raw value, including those
outside the output range (no clamping is applied). -/
theorem identity_range_exact_raw (v : Int) :
    (muxIdent.update js0 (.evAbs .absX) v).output_axis outX = some (some v) := by
  have hcand : candidate ((muxIdent.update js0 (.evAbs .absX) v).axis_states)
      (axX (-32767) 32767) = some v := by
    have hobs : ((muxIdent.update js0 (.evAbs .absX) v).axis_states)
        (axX (-32767) 32767).id = some v := by
      simp [muxIdent, JoystickMux.new, JoystickMux.configure_axis, JoystickMux.update, axX]
    have h := candidate_eq_formula _ (axX (-32767) 32767) v hobs (by decide)
    rw [h]
    have : ((v - (axX (-32767) 32767).lower_bound) * 65534).tdiv
        ((axX (-32767) 32767).upper_bound - (axX (-32767) 32767).lower_bound) = v + 32767 := by
      have h65534 : ((axX (-32767) 32767).upper_bound - (axX (-32767) 32767).lower_bound) =
          65534 := by decide
      rw [h65534]
      have : (v - (axX (-32767) 32767).lower_bound) = v + 32767 := by
        simp [axX]
      rw [this]
      exact Int.mul_tdiv_cancel _ (by norm_num)
    rw [this]
    congr 1
    ring
  simp [JoystickMux.output_axis,
    show lookupAxis ((muxIdent.update js0 (.evAbs .absX) v)).axes outX =
      some (.largestMagnitude [axX (-32767) 32767]) from rfl,
    seqOption, hcand, maxByAbsLast]

/-- Distinct bounds on every `LargestMagnitude` input — the condition
under which no division by zero can occur. -/
def fnWellBounded : AxisCombineFn → Bool
  | .largestMagnitude inputs =>
    inputs.all (fun input => input.lower_bound != input.upper_bound)
  | _ => true

/-- All configured combine functions of a mux are well-bounded. -/
def muxWellBounded (m : JoystickMux) : Bool :=
  m.axes.all (fun p => fnWellBounded p.2)

theorem lookupAxis_mem (axes : List (OutputAxisId × AxisCombineFn)) (out : OutputAxisId)
    (fn : AxisCombineFn) (h : lookupAxis axes out = some fn) :
    ∃ p ∈ axes, p.2 = fn := by
  unfold lookupAxis at h
  rcases hfind : axes.find? (fun p => p.1 == out) with _ | p
  · rw [hfind] at h
    exact absurd h (by simp)
  · rw [hfind] at h
    exact ⟨p, List.mem_of_find?_eq_some hfind, by simpa using h⟩

theorem candidate_ne_none_of_bounds (states : InputAxisId → Option Int) (input : InputAxis)
    (h : input.lower_bound ≠ input.upper_bound) :
    candidate states input ≠ none := by
  rcases hobs : states input.id with _ | v
  · simp [candidate, hobs]
  · have hd : input.upper_bound - input.lower_bound ≠ 0 := by omega
    simp [candidate, hobs, divChecked, hd]

theorem output_axis_isSome (m : JoystickMux) (out : OutputAxisId)
    (hwb : muxWellBounded m = true) : ∃ r, m.output_axis out = some r := by
  rcases hfn : lookupAxis m.axes out with _ | fn
  · exact ⟨none, by simp [JoystickMux.output_axis, hfn]⟩
  · cases fn with
    | button inputs =>
      exact ⟨some (if inputs.any (fun input =>
          match m.axis_states input.id with
          | some value => value != 0
          | none => false) then 1 else 0), by simp [JoystickMux.output_axis, hfn]⟩
    | hat x y =>
      obtain ⟨v, hv⟩ := hatValue_isSome ((m.axis_states x).getD 0) ((m.axis_states y).getD 0)
      exact ⟨some v, by simp [JoystickMux.output_axis, hfn, hv]⟩
    | largestMagnitude inputs =>
      obtain ⟨p, hp, hp2⟩ := lookupAxis_mem m.axes out _ hfn
      have hbound : ∀ input ∈ inputs, input.lower_bound ≠ input.upper_bound := by
        intro input hi
        have hpw := (List.all_eq_true.mp hwb) p hp
        rw [hp2] at hpw
        have hiw := (List.all_eq_true.mp hpw) input hi
        exact bne_iff_ne.mp hiw
      have hnn : ∀ o ∈ inputs.map (candidate m.axis_states), o ≠ none := by
        intro o ho
        obtain ⟨input, hi, rfl⟩ := List.mem_map.mp ho
        exact candidate_ne_none_of_bounds _ _ (hbound input hi)
      rcases hseq : seqOption (inputs.map (candidate m.axis_states)) with _ | cands
      · exact absurd hseq (seqOption_ne_none _ hnn)
      · exact ⟨maxByAbsLast cands, by simp [JoystickMux.output_axis, hfn, hseq]⟩

/-- C8 counterexample: a configuration whose `LargestMagnitude` input has
equal bounds (`[0, 0]`); once that input has an observed value,
evaluation and the snapshot both hit Rust's division-by-zero panic. -/
theorem mux_division_by_zero_panic :
    ((JoystickMux.new.configure_axis outX (.largestMagnitude [axX 0 0])).update js0
      (.evAbs .absX) 1).output_axis outX = none ∧
    ((JoystickMux.new.configure_axis outX (.largestMagnitude [axX 0 0])).update js0
      (.evAbs .absX) 1).output = none := by
  refine ⟨by decide, by decide⟩

/-- C8 (amended): provided every configured `LargestMagnitude` input has
distinct bounds, evaluation and the snapshot are total (never panic), an
unconfigured axis evaluates to Rust `None` (treated as neutral 0 by the
snapshot), and absent input references degrade to the neutral values: 0
for `LargestMagnitude` and `Button`, null (`-1`) for `Hat`. -/
theorem mux_eval_total_and_neutral (m : JoystickMux) (hwb : muxWellBounded m = true) :
    (∀ out, ∃ r, m.output_axis out = some r) ∧
    (∃ s, m.output = some s) ∧
    (∀ out, lookupAxis m.axes out = none → m.output_axis out = some none) ∧
    (∀ out inputs, lookupAxis m.axes out = some (.largestMagnitude inputs) →
      (∀ input ∈ inputs, m.axis_states input.id = none) → inputs ≠ [] →
      m.output_axis out = some (some 0)) ∧
    (∀ out inputs, lookupAxis m.axes out = some (.button inputs) →
      (∀ input ∈ inputs, m.axis_states input.id = none) →
      m.output_axis out = some (some 0)) ∧
    (∀ out x y, lookupAxis m.axes out = some (.hat x y) →
      m.axis_states x = none → m.axis_states y = none →
      m.output_axis out = some (some (-1))) := by
  refine ⟨fun out => output_axis_isSome m out hwb, ?_, ?_, ?_, ?_, ?_⟩
  · have hnn : ∀ o ∈ m.axes.map (fun p => (m.output_axis p.1).map (fun r => (p.1, r.getD 0))),
        o ≠ none := by
      intro o ho
      obtain ⟨p, _, rfl⟩ := List.mem_map.mp ho
      obtain ⟨r, hr⟩ := output_axis_isSome m p.1 hwb
      simp [hr]
    rcases hs : seqOption (m.axes.map (fun p => (m.output_axis p.1).map
        (fun r => (p.1, r.getD 0)))) with _ | s
    · exact absurd hs (seqOption_ne_none _ hnn)
    · exact ⟨s, by simp [JoystickMux.output, hs]⟩
  · intro out hnone
    simp [JoystickMux.output_axis, hnone]
  · intro out inputs hfn habsent hne
    have hseq : seqOption (inputs.map (candidate m.axis_states)) =
        some (inputs.map (fun _ => 0)) := by
      refine seqOption_map_eq_some inputs _ _ ?_
      intro input hi
      simp [candidate, habsent input hi]
    have hmapne : inputs.map (fun _ => (0 : Int)) ≠ [] := by simpa using hne
    obtain ⟨l₁, v, l₂, hsplit, hmv, _, _⟩ := maxByAbsLast_spec _ hmapne
    have hv0 : v = 0 := by
      have hmem : v ∈ inputs.map (fun _ => (0 : Int)) := by
        rw [hsplit]
        simp
      obtain ⟨_, _, h⟩ := List.mem_map.mp hmem
      omega
    subst hv0
    have hred : m.output_axis out = some (maxByAbsLast (inputs.map (fun _ => (0 : Int)))) := by
      simp only [JoystickMux.output_axis, hfn, hseq]
      rfl
    rw [hred, hmv]
  · intro out inputs hfn habsent
    have hany : (inputs.any fun input =>
        match m.axis_states input.id with
        | some value => value != 0
        | none => false) = false := by
      rw [List.any_eq_false]
      intro input hi
      simp [habsent input hi]
    simp [JoystickMux.output_axis, hfn, hany]
  · intro out x y hfn hx hy
    simp [JoystickMux.output_axis, hfn, hx, hy, hatValue]

/-- Witness for C8 (amended): the well-bounded inverted-range mux. -/
theorem mux_eval_total_and_neutral_witness :
    (∀ out, ∃ r, muxInv.output_axis out = some r) ∧
    (∃ s, muxInv.output = some s) ∧
    (∀ out, lookupAxis muxInv.axes out = none → muxInv.output_axis out = some none) ∧
    (∀ out inputs, lookupAxis muxInv.axes out = some (.largestMagnitude inputs) →
      (∀ input ∈ inputs, muxInv.axis_states input.id = none) → inputs ≠ [] →
      muxInv.output_axis out = some (some 0)) ∧
    (∀ out inputs, lookupAxis muxInv.axes out = some (.button inputs) →
      (∀ input ∈ inputs, muxInv.axis_states input.id = none) →
      muxInv.output_axis out = some (some 0)) ∧
    (∀ out x y, lookupAxis muxInv.axes out = some (.hat x y) →
      muxInv.axis_states x = none → muxInv.axis_states y = none →
      muxInv.output_axis out = some (some (-1))) :=
  mux_eval_total_and_neutral muxInv (by decide)

/-- C9 counterexample: a device exposing a relative channel with no
explicit range yields the default bounds `[-1000, 1000]`, not the claimed
`[-350, 350]`, and a button/key channel yields no derived axis at all,
not bounds `[0, 1]`. -/
theorem input_axis_default_bounds_counterexample :
    (get_input_axes ⟨fun _ => none, fun c => isAbsOrRel c⟩ 0 (.evRel 0)).map
      (fun a => (a.lower_bound, a.upper_bound)) = some (-1000, 1000) ∧
    ((-1000 : Int), (1000 : Int)) ≠ ((-350 : Int), (350 : Int)) ∧
    get_input_axes ⟨fun _ => none, fun c => isAbsOrRel c⟩ 0 (.evKey 0) = none := by
  refine ⟨by decide, by decide, by decide⟩

/-- C9 (amended): an absolute or relative channel that the device has but
exposes no explicit range for gets the default bounds `[-1000, 1000]`;
key/button channels are never derived (the loop visits only absolute and
relative codes). -/
theorem input_axis_default_bounds (dev : DeviceModel) (id : Nat) (code : EventCode)
    (har : isAbsOrRel code = true) (hinfo : dev.abs_info code = none)
    (hhas : dev.has code = true) :
    get_input_axes dev id code =
      some { id := { joystick := { jid := id }, axis := code },
             lower_bound := -1000, upper_bound := 1000 } ∧
    (∀ n, get_input_axes dev id (.evKey n) = none) ∧
    get_input_axes dev id .evSyn = none := by
  refine ⟨?_, fun n => rfl, rfl⟩
  simp [get_input_axes, har, hinfo, hhas]

/-- Witness for C9 (amended): the rel-channel device of the
counterexample. -/
theorem input_axis_default_bounds_witness :
    get_input_axes ⟨fun _ => none, fun c => isAbsOrRel c⟩ 7 (.evRel 3) =
      some { id := { joystick := { jid := 7 }, axis := .evRel 3 },
             lower_bound := -1000, upper_bound := 1000 } ∧
    (∀ n, get_input_axes ⟨fun _ => none, fun c => isAbsOrRel c⟩ 7 (.evKey n) = none) ∧
    get_input_axes ⟨fun _ => none, fun c => isAbsOrRel c⟩ 7 .evSyn = none :=
  input_axis_default_bounds ⟨fun _ => none, fun c => isAbsOrRel c⟩ 7 (.evRel 3)
    (by decide) rfl (by decide)

/-- C10 counterexample: negating an axis does NOT rescale to the exact
polarity inverse — for bounds `[-5, 5]` and observed raw value 1 the
candidate is 6553 but the negated axis's candidate is -6554, because
truncation toward zero is asymmetric around the midpoint. -/
theorem neg_axis_not_exact_inverse :
    candidate (statesX 1) (axX (-5) 5) = some 6553 ∧
    candidate (statesX 1) (-(axX (-5) 5)) = some (-6554) ∧
    candidate (statesX 1) (-(axX (-5) 5)) ≠
      (candidate (statesX 1) (axX (-5) 5)).map (fun r => -r) := by
  refine ⟨by decide, by decide, by decide⟩

/-- C10 (amended): unary negation of an `InputAxis` keeps the id, swaps
the bounds, and is an involution; the candidate of `-a` is the polarity
inverse of the candidate of `a` up to the one-unit truncation asymmetry —
their sum has absolute value at most 1 — and is the exact negation
whenever `(upper_bound - lower_bound)` divides `(v - lower_bound) * 65534`
(in particular at the bounds themselves); an unobserved input yields
candidate 0 for both. -/
theorem neg_axis_involution_near_inverse :
    (∀ a : InputAxis, (-a).id = a.id ∧ (-a).lower_bound = a.upper_bound ∧
      (-a).upper_bound = a.lower_bound ∧ -(-a) = a) ∧
    (∀ (states : InputAxisId → Option Int) (a : InputAxis) (c c' : Int),
      candidate states a = some c → candidate states (-a) = some c' →
      (c + c').natAbs ≤ 1) ∧
    (∀ (states : InputAxisId → Option Int) (a : InputAxis) (v : Int),
      states a.id = some v → a.lower_bound ≠ a.upper_bound →
      (a.upper_bound - a.lower_bound) ∣ (v - a.lower_bound) * 65534 →
      candidate states (-a) = (candidate states a).map (fun r => -r)) ∧
    (∀ (states : InputAxisId → Option Int) (a : InputAxis),
      states a.id = none →
      candidate states (-a) = some 0 ∧ candidate states a = some 0) := by
  have hkey : ∀ a : InputAxis, ∀ v : Int,
      ((v - a.upper_bound) * 65534).tdiv (a.lower_bound - a.upper_bound) =
        ((a.upper_bound - a.lower_bound) * 65534 - (v - a.lower_bound) * 65534).tdiv
          (a.upper_bound - a.lower_bound) := by
    intro a v
    rw [show a.lower_bound - a.upper_bound = -(a.upper_bound - a.lower_bound) from by ring,
      Int.tdiv_neg,
      show (v - a.upper_bound) * 65534 =
        -((a.upper_bound - a.lower_bound) * 65534 - (v - a.lower_bound) * 65534) from by ring,
      Int.neg_tdiv, neg_neg]
  refine ⟨fun a => ⟨rfl, rfl, rfl, rfl⟩, ?_, ?_, ?_⟩
  · intro states a c c' h h'
    rcases hobs : states a.id with _ | v
    · have hobs2 : states (-a).id = none := hobs
      simp [candidate, hobs, hobs2] at h h'
      subst h
      subst h'
      decide
    · by_cases hd : a.upper_bound = a.lower_bound
      · have hd0 : a.upper_bound - a.lower_bound = 0 := by omega
        simp [candidate, hobs, divChecked, hd0] at h
      · have hd1 : a.lower_bound ≠ a.upper_bound := fun he => hd he.symm
        have h1 := candidate_eq_formula states a v hobs hd1
        have hobs2 : states (-a).id = some v := hobs
        have hd2 : (-a).lower_bound ≠ (-a).upper_bound := by
          show a.upper_bound ≠ a.lower_bound
          exact hd
        have h2 := candidate_eq_formula states (-a) v hobs2 hd2
        rw [h1] at h
        rw [h2] at h'
        have hc : c = (-32767) +
            ((v - a.lower_bound) * 65534).tdiv (a.upper_bound - a.lower_bound) :=
          (Option.some.injEq _ _ ▸ h).symm
        have hc' : c' = (-32767) +
            ((v - a.upper_bound) * 65534).tdiv (a.lower_bound - a.upper_bound) :=
          (Option.some.injEq _ _ ▸ h').symm
        have hb := tdiv_complementary_sum ((v - a.lower_bound) * 65534)
          (a.upper_bound - a.lower_bound) 65534 (by omega)
        have hsum : c + c' =
            ((v - a.lower_bound) * 65534).tdiv (a.upper_bound - a.lower_bound) +
              ((a.upper_bound - a.lower_bound) * 65534 -
                (v - a.lower_bound) * 65534).tdiv (a.upper_bound - a.lower_bound) - 65534 := by
          rw [hc, hc', hkey a v]
          ring
        rw [hsum]
        exact hb
  · intro states a v hobs hne hdvd
    obtain ⟨k, hk⟩ := hdvd
    have hd : a.upper_bound - a.lower_bound ≠ 0 := by omega
    have h1 := candidate_eq_formula states a v hobs hne
    have hobs2 : states (-a).id = some v := hobs
    have hd2 : (-a).lower_bound ≠ (-a).upper_bound := by
      show a.upper_bound ≠ a.lower_bound
      omega
    have h2 := candidate_eq_formula states (-a) v hobs2 hd2
    rw [h1, h2]
    have e2 : ((v - (-a).lower_bound) * 65534).tdiv ((-a).upper_bound - (-a).lower_bound) =
        ((v - a.upper_bound) * 65534).tdiv (a.lower_bound - a.upper_bound) := rfl
    rw [e2, hkey a v, hk,
      show (a.upper_bound - a.lower_bound) * 65534 - (a.upper_bound - a.lower_bound) * k =
        (a.upper_bound - a.lower_bound) * (65534 - k) from by ring,
      Int.mul_tdiv_cancel_left _ hd, Int.mul_tdiv_cancel_left _ hd]
    simp only [Option.map]
    congr 1
    ring
  · intro states a hobs
    have hobs2 : states (-a).id = none := hobs
    exact ⟨by simp [candidate, hobs2], by simp [candidate, hobs]⟩

/-- Witness for C10 (amended): for bounds `[-5, 5]` with the observed raw
value at the lower bound the division is exact, and negation gives the
exact polarity inverse. -/
theorem neg_axis_involution_near_inverse_witness :
    candidate (statesX (-5)) (-(axX (-5) 5)) =
      (candidate (statesX (-5)) (axX (-5) 5)).map (fun r => -r) :=
  neg_axis_involution_near_inverse.2.2.1 (statesX (-5)) (axX (-5) 5) (-5)
    (by decide) (by decide) (by decide)
